import Mathlib

/-!
Shallow embedding of `src/screenshot.py` (flameshot-helper): the path-derivation
class `ScreenshotPaths`, the rsync command builder, and the notification/open
target selection performed by `main`.  Python strings are embedded as `String`,
Python `None`-returning properties as `Option String`, and the `os.path`
(posixpath) helpers are translated operation by operation on `List Char`.
-/

/-- Timestamp record standing for Python's `datetime.datetime`: the fields the
program's `strftime` templates can consult. -/
structure Datetime where
  year : Nat
  month : Nat
  day : Nat
  hour : Nat
  minute : Nat
  second : Nat
deriving DecidableEq, Repr

/-- Zero-pad a number to two digits, as the strftime numeric directives
`%m %d %H %M %S` print it. -/
def pad2 (n : Nat) : String :=
  if n < 10 then "0" ++ toString n else toString n

/-- Expansion of one strftime directive character, restricted to the numeric
directives the program's templates use (`%Y %m %d %H %M %S` and `%%`); any
other directive character is passed through unchanged, glibc style. -/
def formatDirective (d : Datetime) (c : Char) : String :=
  if c = 'Y' then toString d.year
  else if c = 'm' then pad2 d.month
  else if c = 'd' then pad2 d.day
  else if c = 'H' then pad2 d.hour
  else if c = 'M' then pad2 d.minute
  else if c = 'S' then pad2 d.second
  else if c = '%' then "%"
  else String.mk ['%', c]

/-- Character-list worker for `strftime`: copies literal characters and expands
`%`-directives via `formatDirective`; a trailing lone `%` is kept as-is. -/
def strftimeL (d : Datetime) : List Char → List Char
  | '%' :: c :: rest => (formatDirective d c).data ++ strftimeL d rest
  | ['%'] => ['%']
  | c :: rest => c :: strftimeL d rest
  | [] => []

/-- Model of `datetime.strftime` restricted to the directives the program's
filename templates use. -/
def strftime (d : Datetime) (t : String) : String :=
  ⟨strftimeL d t.data⟩

namespace OsPath

/-- `posixpath.basename` on a character list: everything after the last slash
(`p[i:]` for `i = p.rfind(sep) + 1`). -/
def basenameL (l : List Char) : List Char :=
  (l.reverse.takeWhile (fun c => c ≠ '/')).reverse

/-- The head part `p[:i]` of `posixpath.split`: the prefix up to and including
the last slash (empty when there is no slash). -/
def headPartL (l : List Char) : List Char :=
  (l.reverse.dropWhile (fun c => c ≠ '/')).reverse

/-- `posixpath.dirname` on a character list: the head part, stripped of
trailing slashes unless it is empty or consists only of slashes. -/
def dirnameL (l : List Char) : List Char :=
  let head := headPartL l
  if head.isEmpty || head.all (fun c => c = '/') then head
  else (head.reverse.dropWhile (fun c => c = '/')).reverse

/-- Two-argument `posixpath.join` on character lists: an absolute second
component replaces the first; otherwise the pieces are concatenated, inserting
a slash unless the first is empty or already ends in one. -/
def joinL (a b : List Char) : List Char :=
  if b.head? = some '/' then b
  else if a.isEmpty || a.getLast? = some '/' then a ++ b
  else a ++ '/' :: b

/-- `posixpath.basename`. -/
def basename (s : String) : String := ⟨basenameL s.data⟩

/-- `posixpath.dirname`. -/
def dirname (s : String) : String := ⟨dirnameL s.data⟩

/-- Two-argument `posixpath.join`, the only arity the program uses. -/
def join (a b : String) : String := ⟨joinL a.data b.data⟩

/-- `posixpath.expanduser` with the HOME environment value passed explicitly.
A path not starting with a tilde is returned unchanged; a bare-tilde prefix is
replaced by HOME stripped of trailing slashes (with the all-empty result mapped
to the root); a tilde-username prefix needs the pwd database, an environment
lookup outside the program, and is modelled as returning the path unchanged. -/
def expanduser (home : String) (p : String) : String :=
  match p.data with
  | '~' :: rest =>
    let name := rest.takeWhile (fun c => c ≠ '/')
    let tail := rest.dropWhile (fun c => c ≠ '/')
    if name.isEmpty then
      let h := (home.data.reverse.dropWhile (fun c => c = '/')).reverse
      if (h ++ tail).isEmpty then "/" else ⟨h ++ tail⟩
    else p
  | _ => p

end OsPath

/-- The optional `sftp` sub-object of the configuration file. -/
structure SftpConfig where
  enabled : Bool
  host : String
  user : String
  key : String
  port : Nat
  directory : String
  baseurl : Option String
  clipboard : Bool
deriving DecidableEq, Repr

/-- The configuration record read from the JSON file.  The Python dict's
optional keys become `Option`/defaulted fields; the `open` key is named
`openFlag` because `open` is a Lean keyword. -/
structure Config where
  directory : String
  fname : String
  notify : Bool
  openFlag : Bool
  sftp : Option SftpConfig
deriving DecidableEq, Repr

/-- Truthiness of `config.get("sftp", dict()).get("enabled", False)`. -/
def sftpEnabledCfg (c : Config) : Bool :=
  match c.sftp with
  | none => false
  | some s => s.enabled

/-- Truthiness of the Python check `if not baseurl` (negated): the base URL is
present and non-empty. -/
def baseurlTruthy (s : SftpConfig) : Bool :=
  match s.baseurl with
  | none => false
  | some b => !b.isEmpty

/-- `create_rsync_cmd(local_path, remote_path)`. -/
def create_rsync_cmd (local_path remote_path : String) : List String :=
  ["rsync",
   "-Pr",
   "--no-R", "--no-implied-dirs",
   "-p", "--chmod=F775",
   local_path, remote_path]

/-- The state of a `ScreenshotPaths` object after `__init__`: the (possibly
normalized) configuration and the capture timestamp. -/
structure ScreenshotPaths where
  config : Config
  dt : Datetime
deriving DecidableEq, Repr

/-- `ScreenshotPaths.__init__`.  When remote publishing is enabled the remote
base directory is normalized to end with a slash; indexing the last character
of the directory string (`[-1]`) is total only on a non-empty string, so the
constructor returns `none` exactly where Python raises `IndexError`. -/
def mkScreenshotPaths (config : Config) (dt : Datetime) : Option ScreenshotPaths :=
  match config.sftp with
  | none => some ⟨config, dt⟩
  | some s =>
    if s.enabled then
      match s.directory.data.getLast? with
      | none => none
      | some c =>
        if c ≠ '/' then
          some ⟨{ config with sftp := some { s with directory := s.directory ++ "/" } }, dt⟩
        else
          some ⟨config, dt⟩
    else some ⟨config, dt⟩

namespace ScreenshotPaths

/-- The `self.sftp_enabled` flag computed in `__init__` (a pure function of the
stored configuration, since the configuration is immutable after construction). -/
def sftp_enabled (p : ScreenshotPaths) : Bool :=
  sftpEnabledCfg p.config

/-- Property `formatted_relative_path`: the timestamp formatted through the
configured filename template. -/
def formatted_relative_path (p : ScreenshotPaths) : String :=
  strftime p.dt p.config.fname

/-- Property `relative_dirname`. -/
def relative_dirname (p : ScreenshotPaths) : String :=
  OsPath.dirname p.formatted_relative_path

/-- Property `relative_basename`. -/
def relative_basename (p : ScreenshotPaths) : String :=
  OsPath.basename p.formatted_relative_path

/-- Property `local_path`; `os.path.expanduser` consults the HOME environment
value, passed here explicitly. -/
def local_path (home : String) (p : ScreenshotPaths) : String :=
  OsPath.join (OsPath.expanduser home p.config.directory) p.formatted_relative_path

/-- Property `remote_directory`: `None` unless remote publishing is enabled
(the guard `if not self.sftp_enabled` is exactly the cases where the sftp
record is absent or its enabled flag is false). -/
def remote_directory (p : ScreenshotPaths) : Option String :=
  match p.config.sftp with
  | none => none
  | some s =>
    if s.enabled then some (OsPath.join s.directory p.relative_dirname)
    else none

/-- Property `remote_path`: `None` unless remote publishing is enabled, in
which case it joins `remote_directory` (non-`None` in exactly the same cases)
with the relative basename. -/
def remote_path (p : ScreenshotPaths) : Option String :=
  match p.remote_directory with
  | none => none
  | some d => some (OsPath.join d p.relative_basename)

/-- Property `remote_url`: `None` unless remote publishing is enabled and a
non-empty base URL is configured (`if not baseurl` catches both a missing key
and an empty string). -/
def remote_url (p : ScreenshotPaths) : Option String :=
  match p.config.sftp with
  | none => none
  | some s =>
    if s.enabled then
      match s.baseurl with
      | none => none
      | some b => if b.isEmpty then none else some (b ++ p.formatted_relative_path)
    else none

/-- Property `remote_rsync_path`: the rsync destination string built by plain
string formatting from user, host, the (normalized) remote base directory and
the formatted relative path. -/
def remote_rsync_path (p : ScreenshotPaths) : Option String :=
  match p.config.sftp with
  | none => none
  | some s =>
    if s.enabled then
      some ((s.user ++ "@" ++ s.host ++ ":" ++ s.directory) ++ p.formatted_relative_path)
    else none

end ScreenshotPaths

/-- The desktop-integration outcome of `main` after the upload stage: the
notification summary and body handed to `notify-send` (when the notify flag is
set), and the target actually handed to `xdg-open` (`none` when the open step
is skipped, either because `xdg_path` is falsy or the open flag is unset). -/
structure DesktopActions where
  xdg_path : Option String
  notify_summary : String
  notify_body : Option String
  notified : Bool
  open_invoked : Option String
deriving DecidableEq, Repr

/-- The tail of `main`: starting from `(local_path, local_path)`, the sftp
branch replaces the xdg-open target and notification body with the remote URL
when a truthy base URL exists, and with `(None, remote_path)` otherwise; the
open step then runs only when the resulting target is truthy and the open flag
is set. -/
def desktopActions (home : String) (p : ScreenshotPaths) : DesktopActions :=
  let lp := p.local_path home
  let targets : Option String × Option String :=
    match p.config.sftp with
    | none => (some lp, some lp)
    | some s =>
      if s.enabled then
        if baseurlTruthy s then (p.remote_url, p.remote_url)
        else (none, p.remote_path)
      else (some lp, some lp)
  { xdg_path := targets.1
    notify_summary := p.relative_basename
    notify_body := targets.2
    notified := p.config.notify
    open_invoked :=
      match targets.1 with
      | none => none
      | some t => if !t.isEmpty && p.config.openFlag then some t else none }

/-! Concrete inputs shared by several claims. -/

/-- The timestamp 2024-03-05 14:22:01 used by the concrete claims. -/
def sampleDT : Datetime := ⟨2024, 3, 5, 14, 22, 1⟩

/-- Configuration of claim C4: local-only, template with subdirectories. -/
def c4Config : Config :=
  { directory := "/tmp/shots", fname := "%Y/%m/%d/%H%M%S.png",
    notify := false, openFlag := false, sftp := none }

/-- Sftp sub-configuration of claim C5. -/
def c5Sftp : SftpConfig :=
  { enabled := true, host := "host", user := "user", key := "k", port := 22,
    directory := "/srv/shots", baseurl := some "https://img.example.com/",
    clipboard := false }

/-- Configuration of claim C5. -/
def c5Config : Config :=
  { directory := "/tmp/shots", fname := "%Y/%m/%d/%H%M%S.png",
    notify := false, openFlag := false, sftp := some c5Sftp }

/-- C1: for every configuration in which remote publishing is disabled or the
sftp record is absent, and every timestamp, construction succeeds without
modifying the configuration and the derived properties `remote_directory`,
`remote_path`, `remote_url` and `remote_rsync_path` are all `none`. -/
theorem c1_remote_props_none (config : Config) (dt : Datetime)
    (h : sftpEnabledCfg config = false) :
    mkScreenshotPaths config dt = some ⟨config, dt⟩ ∧
    ScreenshotPaths.remote_directory ⟨config, dt⟩ = none ∧
    ScreenshotPaths.remote_path ⟨config, dt⟩ = none ∧
    ScreenshotPaths.remote_url ⟨config, dt⟩ = none ∧
    ScreenshotPaths.remote_rsync_path ⟨config, dt⟩ = none := by
  unfold sftpEnabledCfg at h
  unfold mkScreenshotPaths ScreenshotPaths.remote_path ScreenshotPaths.remote_directory
    ScreenshotPaths.remote_url ScreenshotPaths.remote_rsync_path
  cases hs : config.sftp with
  | none => simp [hs]
  | some s =>
    rw [hs] at h
    have henabled : s.enabled = false := h
    simp [hs, henabled]

/-- Witness configuration for claim C1 (sftp record absent). -/
def w1Config : Config :=
  { directory := "/d", fname := "f.png", notify := false, openFlag := false, sftp := none }

/-- Witness for C1 at a concrete disabled configuration. -/
theorem c1_remote_props_none_witness :
    mkScreenshotPaths w1Config sampleDT = some ⟨w1Config, sampleDT⟩ ∧
    ScreenshotPaths.remote_directory ⟨w1Config, sampleDT⟩ = none ∧
    ScreenshotPaths.remote_path ⟨w1Config, sampleDT⟩ = none ∧
    ScreenshotPaths.remote_url ⟨w1Config, sampleDT⟩ = none ∧
    ScreenshotPaths.remote_rsync_path ⟨w1Config, sampleDT⟩ = none :=
  c1_remote_props_none w1Config sampleDT rfl

/-- C2: for every object whose configuration has remote publishing enabled but
no (or an empty) base URL, `remote_url` is `none` while `remote_path` is
defined. -/
theorem c2_no_baseurl (p : ScreenshotPaths) (s : SftpConfig)
    (hs : p.config.sftp = some s) (he : s.enabled = true)
    (hb : s.baseurl = none ∨ s.baseurl = some "") :
    p.remote_url = none ∧ ∃ v, p.remote_path = some v := by
  constructor
  · unfold ScreenshotPaths.remote_url
    rw [hs]
    rcases hb with hb | hb <;> simp [he, hb, String.isEmpty_iff]
  · unfold ScreenshotPaths.remote_path ScreenshotPaths.remote_directory
    rw [hs]
    simp [he]

/-- Witness sftp record for claim C2 (enabled, no base URL). -/
def w2Sftp : SftpConfig :=
  { enabled := true, host := "h", user := "u", key := "k", port := 22,
    directory := "/srv/", baseurl := none, clipboard := false }

/-- Witness object for claim C2. -/
def w2Paths : ScreenshotPaths :=
  ⟨{ directory := "/d", fname := "f.png", notify := false, openFlag := false,
     sftp := some w2Sftp }, sampleDT⟩

/-- Witness for C2 at a concrete enabled, no-base-URL configuration. -/
theorem c2_no_baseurl_witness :
    w2Paths.remote_url = none ∧ ∃ v, w2Paths.remote_path = some v :=
  c2_no_baseurl w2Paths w2Sftp rfl rfl (Or.inl rfl)

/-- C4: for the configuration with local directory `/tmp/shots` and template
`%Y/%m/%d/%H%M%S.png`, and the timestamp 2024-03-05 14:22:01, `local_path` is
`/tmp/shots/2024/03/05/142201.png` (for any HOME value, since the directory
contains no tilde). -/
theorem c4_local_path (home : String) :
    ScreenshotPaths.local_path home ⟨c4Config, sampleDT⟩ =
      "/tmp/shots/2024/03/05/142201.png" := rfl

/-- C6: the file-transfer command is exactly the rsync invocation with
`-Pr --no-R --no-implied-dirs -p --chmod=F775` followed by the local path and
the remote path. -/
theorem c6_rsync_cmd (local_path remote_path : String) :
    create_rsync_cmd local_path remote_path =
      ["rsync", "-Pr", "--no-R", "--no-implied-dirs", "-p", "--chmod=F775",
       local_path, remote_path] := rfl

/-- C3: constructing with remote base directory `/srv/shots` stores
`/srv/shots/`, and re-running the constructor on the stored state is the
identity: the normalization happens exactly once, at construction time.  The
derived-path properties are pure functions of the stored state in this
embedding, so no read can alter it. -/
theorem c3_normalize_once (config : Config) (dt : Datetime) (s : SftpConfig)
    (hs : config.sftp = some s) (he : s.enabled = true)
    (hd : s.directory = "/srv/shots") :
    ∃ p, mkScreenshotPaths config dt = some p ∧
      p.config.sftp = some { s with directory := "/srv/shots/" } ∧
      mkScreenshotPaths p.config p.dt = some p := by
  have happ : s.directory ++ "/" = "/srv/shots/" := by rw [hd]; decide
  refine ⟨⟨{ config with sftp := some { s with directory := "/srv/shots/" } }, dt⟩, ?_, rfl, ?_⟩
  · unfold mkScreenshotPaths
    rw [hs]
    simp [he, hd, happ]
  · unfold mkScreenshotPaths
    simp [he]

/-- Witness sftp record for claim C3. -/
def w3Sftp : SftpConfig :=
  { enabled := true, host := "h", user := "u", key := "k", port := 22,
    directory := "/srv/shots", baseurl := none, clipboard := false }

/-- Witness configuration for claim C3. -/
def w3Config : Config :=
  { directory := "/d", fname := "f.png", notify := false, openFlag := false,
    sftp := some w3Sftp }

/-- Witness for C3 at a concrete configuration. -/
theorem c3_normalize_once_witness :
    ∃ p, mkScreenshotPaths w3Config sampleDT = some p ∧
      p.config.sftp = some { w3Sftp with directory := "/srv/shots/" } ∧
      mkScreenshotPaths p.config p.dt = some p :=
  c3_normalize_once w3Config sampleDT w3Sftp rfl rfl rfl

/-- C5: with remote publishing enabled, base URL `https://img.example.com/`,
remote base directory `/srv/shots`, user `user`, host `host`, the template
`%Y/%m/%d/%H%M%S.png` and the timestamp 2024-03-05 14:22:01, `remote_url` is
`https://img.example.com/2024/03/05/142201.png` and `remote_rsync_path` is
`user@host:/srv/shots/2024/03/05/142201.png`. -/
theorem c5_remote_url_and_rsync :
    ∃ p, mkScreenshotPaths c5Config sampleDT = some p ∧
      p.remote_url = some "https://img.example.com/2024/03/05/142201.png" ∧
      p.remote_rsync_path = some "user@host:/srv/shots/2024/03/05/142201.png" := by
  refine ⟨⟨{ c5Config with sftp := some { c5Sftp with directory := "/srv/shots/" } },
    sampleDT⟩, ?_, ?_, ?_⟩ <;> decide

/-- C9: with remote publishing enabled, the constructor's last-character index
on the remote base directory makes construction fail exactly on the empty
string: `none` when the directory is empty, `some` otherwise. -/
theorem c9_empty_remote_dir (config : Config) (dt : Datetime) (s : SftpConfig)
    (hs : config.sftp = some s) (he : s.enabled = true) :
    (s.directory = "" → mkScreenshotPaths config dt = none) ∧
    (s.directory ≠ "" → ∃ p, mkScreenshotPaths config dt = some p) := by
  constructor
  · intro hd
    simp [mkScreenshotPaths, hs, he, hd]
  · intro hd
    cases hl : s.directory.data.getLast? with
    | none =>
      exfalso
      exact hd (String.ext (List.getLast?_eq_none_iff.mp hl))
    | some c =>
      simp only [mkScreenshotPaths, hs, he, if_true, hl]
      by_cases hc : c = '/' <;> simp [hc]

/-- Witness sftp record for claim C9 (enabled, empty remote directory). -/
def w9Sftp : SftpConfig :=
  { enabled := true, host := "h", user := "u", key := "k", port := 22,
    directory := "", baseurl := none, clipboard := false }

/-- Witness configuration for claim C9. -/
def w9Config : Config :=
  { directory := "/d", fname := "f.png", notify := false, openFlag := false,
    sftp := some w9Sftp }

/-- Witness for C9: construction fails on the empty remote base directory. -/
theorem c9_empty_remote_dir_witness :
    mkScreenshotPaths w9Config sampleDT = none :=
  (c9_empty_remote_dir w9Config sampleDT w9Sftp rfl rfl).1 rfl

/-- C7: in `main`, when remote publishing is enabled with no truthy base URL
and the open flag is set, the xdg-open step is skipped (no target is handed to
it) while the notification body is the remote path; when remote publishing is
disabled, the notification body and the open target are both the local path. -/
theorem c7_notify_open_selection (home : String) (p : ScreenshotPaths) :
    (∀ s, p.config.sftp = some s → s.enabled = true → baseurlTruthy s = false →
      p.config.openFlag = true →
      (desktopActions home p).open_invoked = none ∧
      (desktopActions home p).notify_body = p.remote_path) ∧
    (sftpEnabledCfg p.config = false →
      (desktopActions home p).notify_body = some (p.local_path home) ∧
      (desktopActions home p).xdg_path = some (p.local_path home)) := by
  constructor
  · intro s hs he hb _
    simp [desktopActions, hs, he, hb]
  · intro h
    unfold sftpEnabledCfg at h
    cases hs : p.config.sftp with
    | none => simp [desktopActions, hs]
    | some s =>
      rw [hs] at h
      have henabled : s.enabled = false := h
      simp [desktopActions, hs, henabled]

/-- Witness sftp record for claim C7 (enabled, no base URL). -/
def w7Sftp : SftpConfig :=
  { enabled := true, host := "h", user := "u", key := "k", port := 22,
    directory := "/srv/", baseurl := none, clipboard := false }

/-- Witness object for the enabled, no-base-URL, open-flag-set scenario of C7. -/
def w7aPaths : ScreenshotPaths :=
  ⟨{ directory := "/d", fname := "f.png", notify := true, openFlag := true,
     sftp := some w7Sftp }, sampleDT⟩

/-- Witness object for the remote-disabled scenario of C7. -/
def w7bPaths : ScreenshotPaths :=
  ⟨{ directory := "/d", fname := "f.png", notify := true, openFlag := true,
     sftp := none }, sampleDT⟩

/-- Witness for C7 at concrete configurations for both scenarios. -/
theorem c7_notify_open_selection_witness :
    ((desktopActions "/home/u" w7aPaths).open_invoked = none ∧
     (desktopActions "/home/u" w7aPaths).notify_body = w7aPaths.remote_path) ∧
    ((desktopActions "/home/u" w7bPaths).notify_body =
        some (w7bPaths.local_path "/home/u") ∧
     (desktopActions "/home/u" w7bPaths).xdg_path =
        some (w7bPaths.local_path "/home/u")) :=
  ⟨(c7_notify_open_selection "/home/u" w7aPaths).1 w7Sftp rfl rfl rfl rfl,
   (c7_notify_open_selection "/home/u" w7bPaths).2 rfl⟩

/-- Predicate on a character list: no two adjacent path separators. -/
def noDoubleSlash : List Char → Bool
  | [] => true
  | [_] => true
  | a :: b :: rest => if a = '/' ∧ b = '/' then false else noDoubleSlash (b :: rest)

namespace OsPath

/-- A slash-free list is its own basename. -/
theorem basenameL_of_no_slash (l : List Char) (h : '/' ∉ l) : basenameL l = l := by
  unfold basenameL
  rw [List.takeWhile_eq_self_iff.mpr, List.reverse_reverse]
  intro a ha
  rw [List.mem_reverse] at ha
  simp only [ne_eq, decide_eq_true_eq]
  rintro rfl
  exact h ha

/-- A slash-free list has an empty split head part. -/
theorem headPartL_of_no_slash (l : List Char) (h : '/' ∉ l) : headPartL l = [] := by
  unfold headPartL
  rw [List.dropWhile_eq_nil_iff.mpr, List.reverse_nil]
  intro a ha
  rw [List.mem_reverse] at ha
  simp only [ne_eq, decide_eq_true_eq]
  rintro rfl
  exact h ha

/-- A slash-free list has an empty dirname. -/
theorem dirnameL_of_no_slash (l : List Char) (h : '/' ∉ l) : dirnameL l = [] := by
  simp only [dirnameL]
  rw [headPartL_of_no_slash l h]
  simp

/-- Joining onto a slash-terminated first component concatenates when the
second component is not absolute. -/
theorem joinL_slash_end (a b : List Char) (ha : a.getLast? = some '/')
    (hb : b.head? ≠ some '/') : joinL a b = a ++ b := by
  simp [joinL, hb, ha]

/-- Joining inserts a separator when the first component is non-empty and not
slash-terminated and the second is not absolute. -/
theorem joinL_no_end_slash (a b : List Char) (hne : a ≠ [])
    (ha : a.getLast? ≠ some '/') (hb : b.head? ≠ some '/') :
    joinL a b = a ++ '/' :: b := by
  simp [joinL, hb, ha, hne]

end OsPath

/-- Dropping the first element preserves the no-double-slash predicate. -/
theorem noDoubleSlash_tail (x : Char) (xs : List Char)
    (h : noDoubleSlash (x :: xs) = true) : noDoubleSlash xs = true := by
  cases xs with
  | nil => rfl
  | cons y ys =>
    unfold noDoubleSlash at h
    split at h
    · exact absurd h (by simp)
    · exact h

/-- In a list with no double slash, the part before a slash cannot end
in a slash. -/
theorem getLast?_ne_slash_of_noDoubleSlash (A B : List Char)
    (h : noDoubleSlash (A ++ '/' :: B) = true) : A.getLast? ≠ some '/' := by
  induction A with
  | nil => simp
  | cons a A ih =>
    cases A with
    | nil =>
      simp only [List.getLast?_singleton]
      intro hEq
      have ha : a = '/' := Option.some.inj hEq
      subst ha
      simp [noDoubleSlash] at h
    | cons a' A' =>
      rw [List.cons_append] at h
      have h' := noDoubleSlash_tail a _ h
      rw [List.getLast?_cons_cons]
      exact ih h'

/-- Core refinement fact: joining the dirname then the basename of a relative,
double-slash-free path onto a slash-terminated base equals plain
concatenation of base and path. -/
theorem joinL_dirnameL_basenameL (D F : List Char)
    (hD : D.getLast? = some '/')
    (hF : F.head? ≠ some '/')
    (hnd : noDoubleSlash F = true) :
    OsPath.joinL (OsPath.joinL D (OsPath.dirnameL F)) (OsPath.basenameL F) = D ++ F := by
  cases hd : F.reverse.dropWhile (fun c => c ≠ '/') with
  | nil =>
    have hall := List.dropWhile_eq_nil_iff.mp hd
    have hns : '/' ∉ F := by
      intro hmem
      have := hall '/' (List.mem_reverse.mpr hmem)
      simp at this
    rw [OsPath.dirnameL_of_no_slash F hns, OsPath.basenameL_of_no_slash F hns]
    rw [OsPath.joinL_slash_end D [] hD (by simp)]
    rw [List.append_nil]
    exact OsPath.joinL_slash_end D F hD hF
  | cons c d₂ =>
    have hc : c = '/' := by
      have h2 := List.head?_dropWhile_not (fun c => decide (c ≠ '/')) F.reverse
      rw [hd] at h2
      simp at h2
      exact h2
    subst hc
    set T := F.reverse.takeWhile (fun c => c ≠ '/') with hT
    have hsplit : T ++ '/' :: d₂ = F.reverse := by
      rw [hT, ← hd]
      exact List.takeWhile_append_dropWhile _ _
    have hFeq : F = d₂.reverse ++ '/' :: T.reverse := by
      have h3 := congrArg List.reverse hsplit
      simp only [List.reverse_append, List.reverse_cons, List.reverse_reverse] at h3
      rw [← h3]
      simp
    have hTne : ∀ a ∈ T, a ≠ '/' := by
      intro a ha
      have := List.mem_takeWhile_imp ha
      simpa using this
    have hF' : (d₂.reverse ++ '/' :: T.reverse).head? ≠ some '/' := hFeq ▸ hF
    have hAne : d₂.reverse ≠ [] := by
      intro hnil
      rw [hnil, List.nil_append] at hF'
      simp at hF'
    have hAhead : d₂.reverse.head? ≠ some '/' := by
      intro hcontra
      cases hA : d₂.reverse with
      | nil => exact hAne hA
      | cons x xs =>
        rw [hA] at hcontra hF'
        simp only [List.head?_cons, Option.some.injEq] at hcontra
        subst hcontra
        simp at hF'
    have hAlast : d₂.reverse.getLast? ≠ some '/' := by
      apply getLast?_ne_slash_of_noDoubleSlash d₂.reverse T.reverse
      rw [← hFeq]
      exact hnd
    have hd₂ne : d₂ ≠ [] := by
      intro hnil
      exact hAne (by rw [hnil]; rfl)
    obtain ⟨x, xs, hxxs⟩ : ∃ x xs, d₂ = x :: xs := by
      cases d₂ with
      | nil => exact absurd rfl hd₂ne
      | cons x xs => exact ⟨x, xs, rfl⟩
    have hx : x ≠ '/' := by
      intro hxeq
      apply hAlast
      rw [List.getLast?_reverse, hxxs, hxeq]
      rfl
    have hHead : OsPath.headPartL F = d₂.reverse ++ ['/'] := by
      unfold OsPath.headPartL
      rw [hd]
      simp
    have hBase : OsPath.basenameL F = T.reverse := by
      unfold OsPath.basenameL
      rw [← hT]
    have hDir : OsPath.dirnameL F = d₂.reverse := by
      simp only [OsPath.dirnameL]
      rw [hHead]
      rw [if_neg ?_]
      case _ =>
        simp only [List.reverse_append, List.reverse_reverse, List.reverse_cons,
          List.reverse_nil, List.nil_append, List.singleton_append]
        rw [List.dropWhile_cons_of_pos (by simp)]
        rw [hxxs]
        rw [List.dropWhile_cons_of_neg (by simp [hx])]
      case _ =>
        intro hcond
        rw [Bool.or_eq_true] at hcond
        rcases hcond with hcond | hcond
        · simp [List.isEmpty_eq_true] at hcond
        · rw [List.all_eq_true] at hcond
          have hxmem : x ∈ d₂.reverse ++ ['/'] := by
            rw [List.mem_append, List.mem_reverse, hxxs]
            exact Or.inl (List.mem_cons_self x xs)
          have := hcond x hxmem
          simp at this
          exact hx this
    have hThead : T.reverse.head? ≠ some '/' := by
      intro hcon
      cases hTr : T.reverse with
      | nil => rw [hTr] at hcon; cases hcon
      | cons y ys =>
        rw [hTr] at hcon
        simp only [List.head?_cons, Option.some.injEq] at hcon
        have hy : y ∈ T := by
          rw [← List.mem_reverse, hTr]
          exact List.mem_cons_self y ys
        exact hTne y hy hcon
    rw [hDir, hBase]
    rw [OsPath.joinL_slash_end D d₂.reverse hD hAhead]
    rw [OsPath.joinL_no_end_slash (D ++ d₂.reverse) T.reverse
      (by simp [hAne]) (by rw [List.getLast?_append_of_ne_nil D hAne]; exact hAlast) hThead]
    rw [List.append_assoc, ← hFeq]

/-- Characterization of a successful construction with remote publishing
enabled: the stored sftp record keeps user and host, its directory ends in a
slash, and the template and timestamp are stored unchanged. -/
theorem mk_enabled_spec (config : Config) (dt : Datetime) (s : SftpConfig)
    (p : ScreenshotPaths) (hs : config.sftp = some s) (he : s.enabled = true)
    (hmk : mkScreenshotPaths config dt = some p) :
    ∃ s', p.config.sftp = some s' ∧ s'.enabled = true ∧
      s'.user = s.user ∧ s'.host = s.host ∧
      s'.directory.data.getLast? = some '/' ∧
      p.config.fname = config.fname ∧ p.dt = dt := by
  obtain ⟨cdir, cfname, cnotify, copen, csftp⟩ := config
  have hs' : csftp = some s := hs
  subst hs'
  unfold mkScreenshotPaths at hmk
  dsimp only at hmk
  rw [if_pos he] at hmk
  split at hmk
  · cases hmk
  · rename_i c hl
    split at hmk
    · have hp := Option.some.inj hmk
      subst hp
      refine ⟨{ s with directory := s.directory ++ "/" }, rfl, he, rfl, rfl, ?_, rfl, rfl⟩
      show (s.directory ++ "/").data.getLast? = some '/'
      rw [String.data_append]
      exact List.getLast?_concat _
    · rename_i hc
      have hcc : c = '/' := not_not.mp hc
      have hp := Option.some.inj hmk
      subst hp
      refine ⟨s, hs, he, rfl, rfl, ?_, rfl, rfl⟩
      rw [hl, hcc]

/-- C8: with remote publishing enabled (constructed state) and a template
output containing no separator, `remote_directory` is the normalized remote
base directory itself and `remote_path` joins it with the file-name portion. -/
theorem c8_empty_dir_component (config : Config) (dt : Datetime)
    (p : ScreenshotPaths) (s : SftpConfig)
    (hmk : mkScreenshotPaths config dt = some p)
    (hs : config.sftp = some s) (he : s.enabled = true)
    (hnoslash : '/' ∉ p.formatted_relative_path.data) :
    ∃ s', p.config.sftp = some s' ∧
      p.remote_directory = some s'.directory ∧
      p.remote_path = some (OsPath.join s'.directory p.relative_basename) := by
  obtain ⟨s', hps, he', _, _, hlast, _, _⟩ := mk_enabled_spec config dt s p hs he hmk
  have hdirn : p.relative_dirname = "" := by
    unfold ScreenshotPaths.relative_dirname OsPath.dirname
    rw [OsPath.dirnameL_of_no_slash _ hnoslash]
  have hrd : p.remote_directory = some s'.directory := by
    unfold ScreenshotPaths.remote_directory
    rw [hps]
    simp only [he', if_true, Option.some.injEq]
    rw [hdirn]
    apply String.ext
    show OsPath.joinL s'.directory.data [] = s'.directory.data
    rw [OsPath.joinL_slash_end _ [] hlast (by simp)]
    exact List.append_nil _
  refine ⟨s', hps, hrd, ?_⟩
  unfold ScreenshotPaths.remote_path
  rw [hrd]

/-- Witness sftp record for claim C8. -/
def w8Sftp : SftpConfig :=
  { enabled := true, host := "h", user := "u", key := "k", port := 22,
    directory := "/srv", baseurl := none, clipboard := false }

/-- Witness configuration for claim C8 (template output without separator). -/
def w8Config : Config :=
  { directory := "/d", fname := "x.png", notify := false, openFlag := false,
    sftp := some w8Sftp }

/-- The object constructed from the C8 witness configuration. -/
def w8Paths : ScreenshotPaths :=
  ⟨{ w8Config with sftp := some { w8Sftp with directory := "/srv/" } }, sampleDT⟩

/-- Witness for C8 at a concrete configuration. -/
theorem c8_empty_dir_component_witness :
    ∃ s', w8Paths.config.sftp = some s' ∧
      w8Paths.remote_directory = some s'.directory ∧
      w8Paths.remote_path = some (OsPath.join s'.directory w8Paths.relative_basename) :=
  c8_empty_dir_component w8Config sampleDT w8Paths w8Sftp (by decide) rfl rfl (by decide)

/-- Witness sftp record for claim C10's counterexample. -/
def w10Sftp : SftpConfig :=
  { enabled := true, host := "h", user := "u", key := "k", port := 22,
    directory := "/srv", baseurl := none, clipboard := false }

/-- Configuration whose template output `a//b.png` has a doubled separator. -/
def w10Config : Config :=
  { directory := "/tmp/shots", fname := "a//b.png", notify := false,
    openFlag := false, sftp := some w10Sftp }

/-- The object constructed from the C10 counterexample configuration. -/
def w10Paths : ScreenshotPaths :=
  ⟨{ w10Config with sftp := some { w10Sftp with directory := "/srv/" } }, sampleDT⟩

/-- C10 counterexample: for a relative template output with a doubled
separator, the dirname/basename joins of `remote_path` collapse `a//b.png` to
`a/b.png` while the concatenated transfer address keeps the doubled slash, so
`remote_rsync_path` is not the user-host prefix concatenated with
`remote_path`. -/
theorem c10_counterexample :
    mkScreenshotPaths w10Config sampleDT = some w10Paths ∧
    w10Paths.formatted_relative_path.data.head? ≠ some '/' ∧
    w10Paths.remote_path = some "/srv/a/b.png" ∧
    w10Paths.remote_rsync_path = some "u@h:/srv/a//b.png" ∧
    "u@h:" ++ "/srv/a/b.png" ≠ "u@h:/srv/a//b.png" :=
  ⟨by decide, by decide, by decide, by decide, by decide⟩

/-- C10, amended: with remote publishing enabled (constructed state) and a
template output that is relative and has no doubled separator,
`remote_rsync_path` is the user-host prefix concatenated with `remote_path`. -/
theorem c10_rsync_refines_remote_path (config : Config) (dt : Datetime)
    (p : ScreenshotPaths) (s : SftpConfig)
    (hmk : mkScreenshotPaths config dt = some p)
    (hs : config.sftp = some s) (he : s.enabled = true)
    (hrel : p.formatted_relative_path.data.head? ≠ some '/')
    (hnd : noDoubleSlash p.formatted_relative_path.data = true) :
    ∃ s' rp, p.config.sftp = some s' ∧ p.remote_path = some rp ∧
      p.remote_rsync_path = some (s'.user ++ "@" ++ s'.host ++ ":" ++ rp) := by
  obtain ⟨s', hps, he', hu, hh, hlast, hf, hdt⟩ := mk_enabled_spec config dt s p hs he hmk
  have hrp : p.remote_path =
      some (OsPath.join (OsPath.join s'.directory p.relative_dirname)
        p.relative_basename) := by
    unfold ScreenshotPaths.remote_path ScreenshotPaths.remote_directory
    rw [hps]
    simp [he']
  have hkey : OsPath.join (OsPath.join s'.directory p.relative_dirname)
      p.relative_basename = s'.directory ++ p.formatted_relative_path := by
    apply String.ext
    rw [String.data_append]
    show OsPath.joinL
        (OsPath.joinL s'.directory.data (OsPath.dirnameL p.formatted_relative_path.data))
        (OsPath.basenameL p.formatted_relative_path.data)
      = s'.directory.data ++ p.formatted_relative_path.data
    exact joinL_dirnameL_basenameL _ _ hlast hrel hnd
  have hrs : p.remote_rsync_path =
      some ((s'.user ++ "@" ++ s'.host ++ ":" ++ s'.directory) ++
        p.formatted_relative_path) := by
    unfold ScreenshotPaths.remote_rsync_path
    rw [hps]
    simp [he']
  refine ⟨s', OsPath.join (OsPath.join s'.directory p.relative_dirname)
    p.relative_basename, hps, hrp, ?_⟩
  rw [hrs, hkey]
  rw [String.append_assoc]

/-- Configuration for the C10 amended-claim witness (template output with one
separator and no doubled slash). -/
def w10aConfig : Config :=
  { directory := "/tmp/shots", fname := "a/b.png", notify := false,
    openFlag := false, sftp := some w10Sftp }

/-- The object constructed from the C10 amended-claim witness configuration. -/
def w10aPaths : ScreenshotPaths :=
  ⟨{ w10aConfig with sftp := some { w10Sftp with directory := "/srv/" } }, sampleDT⟩

/-- Witness for the amended C10 at a concrete configuration. -/
theorem c10_rsync_refines_remote_path_witness :
    ∃ s' rp, w10aPaths.config.sftp = some s' ∧ w10aPaths.remote_path = some rp ∧
      w10aPaths.remote_rsync_path = some (s'.user ++ "@" ++ s'.host ++ ":" ++ rp) :=
  c10_rsync_refines_remote_path w10aConfig sampleDT w10aPaths w10Sftp
    (by decide) rfl rfl (by decide) (by decide)
